import Mathlib

/-!
Shallow embedding of the TritonCAN bridge core
(src/td_CAN/td_can_bridges/service.py and bridge_node.py) and proofs of the
specified properties.

Python dictionaries are modelled as association lists with Python dict
semantics: lookup finds the unique entry for a key, insertion replaces the
value of an existing key in place and otherwise appends.  Payload values are
modelled as integers; the external frame-schema collaborator (cantools) is
modelled abstractly as a pair of encode and decode functions carried by a
message definition, since the core only ever calls encode and decode on it.
-/

set_option autoImplicit false

namespace TritonCAN

universe u v

variable {α : Type u} {β : Type v} [DecidableEq α]

/-- Python dict lookup on an association list (keys are unique in real dicts,
so first match is the match). -/
def lookupD : List (α × β) → α → Option β
  | [], _ => none
  | p :: rest, k => if p.1 = k then some p.2 else lookupD rest k

/-- Python dict assignment: replace the value of an existing key in place,
otherwise append the new entry at the end (insertion order preserved). -/
def insertD : List (α × β) → α → β → List (α × β)
  | [], k, v => [(k, v)]
  | p :: rest, k, v => if p.1 = k then (k, v) :: rest else p :: insertD rest k v

/-- Building a dict by inserting a list of key-value pairs into the empty
dict, i.e. the meaning of a Python dict comprehension. -/
def dictOf (l : List (α × β)) : List (α × β) :=
  l.foldl (fun acc p => insertD acc p.1 p.2) []

@[simp] theorem lookupD_nil (k : α) : lookupD ([] : List (α × β)) k = none := rfl

@[simp] theorem lookupD_cons (p : α × β) (rest : List (α × β)) (k : α) :
    lookupD (p :: rest) k = if p.1 = k then some p.2 else lookupD rest k := rfl

theorem lookupD_eq_none_iff (l : List (α × β)) (k : α) :
    lookupD l k = none ↔ k ∉ l.map Prod.fst := by
  induction l with
  | nil => simp
  | cons p rest ih =>
    by_cases h : p.1 = k
    · simp [h]
    · rw [lookupD_cons, if_neg h]
      simp only [List.map_cons, List.mem_cons, not_or, ih]
      have hne : ¬k = p.1 := fun he => h he.symm
      tauto

theorem lookupD_isSome_of_mem_keys {l : List (α × β)} {k : α}
    (h : k ∈ l.map Prod.fst) : (lookupD l k).isSome := by
  induction l with
  | nil => simp at h
  | cons p rest ih =>
    by_cases hk : p.1 = k
    · simp [hk]
    · simp only [List.map_cons, List.mem_cons] at h
      rcases h with h | h
      · exact absurd h.symm hk
      · simpa [hk] using ih h

theorem insertD_of_not_mem {l : List (α × β)} {k : α} (v : β)
    (h : k ∉ l.map Prod.fst) : insertD l k v = l ++ [(k, v)] := by
  induction l with
  | nil => rfl
  | cons p rest ih =>
    simp only [List.map_cons, List.mem_cons, not_or] at h
    simp [insertD, Ne.symm h.1, ih h.2]

theorem keys_insertD (l : List (α × β)) (k : α) (v : β) :
    (insertD l k v).map Prod.fst =
      if k ∈ l.map Prod.fst then l.map Prod.fst else l.map Prod.fst ++ [k] := by
  induction l with
  | nil => rfl
  | cons p rest ih =>
    by_cases h : p.1 = k
    · simp [insertD, h]
    · by_cases hm : k ∈ rest.map Prod.fst <;>
        simp [insertD, h, ih, hm, Ne.symm h]

theorem nodup_keys_insertD {l : List (α × β)} {k : α} {v : β}
    (h : (l.map Prod.fst).Nodup) : ((insertD l k v).map Prod.fst).Nodup := by
  rw [keys_insertD]
  by_cases hm : k ∈ l.map Prod.fst
  · simpa [hm] using h
  · rw [if_neg hm]
    refine List.Nodup.append h (List.nodup_singleton k) ?_
    intro a ha hb
    simp only [List.mem_singleton] at hb
    exact hm (hb ▸ ha)

theorem lookupD_insertD_self (l : List (α × β)) (k : α) (v : β) :
    lookupD (insertD l k v) k = some v := by
  induction l with
  | nil => simp [insertD]
  | cons p rest ih =>
    by_cases h : p.1 = k <;> simp [insertD, h, ih]

theorem lookupD_insertD_ne (l : List (α × β)) {k k' : α} (v : β) (h : k' ≠ k) :
    lookupD (insertD l k v) k' = lookupD l k' := by
  induction l with
  | nil => simp [insertD, Ne.symm h]
  | cons p rest ih =>
    by_cases hp : p.1 = k
    · subst hp
      simp [insertD, Ne.symm h]
    · by_cases hp' : p.1 = k' <;> simp [insertD, hp, hp', h, ih]

theorem foldl_insertD_of_nodup (l acc : List (α × β))
    (hn : (l.map Prod.fst).Nodup)
    (hd : ∀ p ∈ l, p.1 ∉ acc.map Prod.fst) :
    l.foldl (fun a p => insertD a p.1 p.2) acc = acc ++ l := by
  induction l generalizing acc with
  | nil => simp
  | cons p rest ih =>
    simp only [List.map_cons, List.nodup_cons] at hn
    have hfresh : p.1 ∉ acc.map Prod.fst := hd p (by simp)
    have hstep : insertD acc p.1 p.2 = acc ++ [(p.1, p.2)] :=
      insertD_of_not_mem _ hfresh
    have hd' : ∀ q ∈ rest, q.1 ∉ (acc ++ [(p.1, p.2)]).map Prod.fst := by
      intro q hq
      simp only [List.map_append, List.mem_append, List.map_cons, List.map_nil,
        List.mem_singleton, not_or]
      refine ⟨hd q (by simp [hq]), ?_⟩
      intro hcontra
      exact hn.1 (hcontra ▸ List.mem_map_of_mem Prod.fst hq)
    simp only [List.foldl_cons, hstep]
    rw [ih (acc ++ [(p.1, p.2)]) hn.2 hd']
    simp

theorem dictOf_of_nodup {l : List (α × β)} (hn : (l.map Prod.fst).Nodup) :
    dictOf l = l := by
  simpa [dictOf] using foldl_insertD_of_nodup l [] hn (by simp)

theorem lookupD_map_of_nodup {γ : Type v} (l : List γ) (key : γ → α) (val : γ → β)
    (hn : (l.map key).Nodup) {x : γ} (hx : x ∈ l) :
    lookupD (l.map fun g => (key g, val g)) (key x) = some (val x) := by
  induction l with
  | nil => simp at hx
  | cons g rest ih =>
    simp only [List.map_cons, List.nodup_cons] at hn
    rcases List.mem_cons.mp hx with rfl | hx'
    · simp
    · have hne : key g ≠ key x := by
        intro h
        exact hn.1 (h ▸ List.mem_map_of_mem key hx')
      simp [hne, ih hn.2 hx']

/-!
## Data model

The external frame schema collaborator (a cantools message definition) is
abstracted to what the core calls on it: a numeric frame identifier, the
extended-frame flag, an encode function from signal values to frame bytes and
a decode function from frame bytes to signal values.  Decoding malformed
bytes (wrong length, out-of-range data) raises in cantools, modelled here as
returning none.
-/

/-- Abstraction of a cantools message definition, as used by service.py. -/
structure MsgDef where
  name : String
  frame_id : Nat
  is_extended_frame : Bool
  encodeSig : List (String × Int) → List Nat
  decodeSig : List Nat → Option (List (String × Int))

/-- A DBC database, as far as the core reads it: get_message_by_name. -/
def Dbc := List (String × MsgDef)

/-- dbc.get_message_by_name: none models the cantools KeyError. -/
def getMessageByName (dbc : Dbc) (msg : String) : Option MsgDef :=
  lookupD dbc msg

/-- can.Message as constructed by FrameEncoder.encode. -/
structure CanMessage where
  arbitration_id : Nat
  data : List Nat
  is_extended_id : Bool
deriving DecidableEq, Repr

/-- TxBindingConfig from service.py: fields maps friendly keys to DBC signal
names (metadata is opaque to the core and omitted). -/
structure TxBindingConfig where
  key : String
  message : String
  fields : List (String × String)
deriving DecidableEq, Repr

/-- RxBindingConfig from service.py: fields maps DBC signal names to friendly
keys (metadata omitted as opaque). -/
structure RxBindingConfig where
  key : String
  message : String
  fields : List (String × String)
deriving DecidableEq, Repr

/-- Errors raised by FrameEncoder.encode: the KeyError names the missing
field and the binding key, exactly as the Python message does. -/
inductive EncodeErr where
  | missingField (fieldName : String) (bindingKey : String)
deriving DecidableEq, Repr

/-- FrameEncoder state after construction: the resolved message definition
and dict(binding.fields). -/
structure FrameEncoder where
  binding_key : String
  msg_def : MsgDef
  alias_to_signal : List (String × String)

/-- FrameEncoder construction: resolves binding.message in the DBC (none
models the cantools lookup failure). -/
def FrameEncoder.ofBinding (dbc : Dbc) (binding : TxBindingConfig) :
    Option FrameEncoder :=
  (getMessageByName dbc binding.message).map fun md =>
    { binding_key := binding.key, msg_def := md, alias_to_signal := binding.fields }

/-- The values-building loop of FrameEncoder.encode: iterate the
alias-to-signal map in order; the first alias absent from the payload raises
KeyError; otherwise assign values[signal] = payload[alias]. -/
def buildValues (bindingKey : String) (payload : List (String × Int)) :
    List (String × String) → List (String × Int) → Except EncodeErr (List (String × Int))
  | [], acc => .ok acc
  | p :: rest, acc =>
    match lookupD payload p.1 with
    | none => .error (.missingField p.1 bindingKey)
    | some v => buildValues bindingKey payload rest (insertD acc p.2 v)

/-- FrameEncoder.encode: with a non-empty alias map, remap the payload to
signal values (raising on a missing field); with an empty map the payload is
passed to the schema encoder as-is.  On success, the frame id and extended
flag come from the schema message definition. -/
def FrameEncoder.encode (e : FrameEncoder) (payload : List (String × Int)) :
    Except EncodeErr CanMessage :=
  match (if e.alias_to_signal.isEmpty then Except.ok payload
         else buildValues e.binding_key payload e.alias_to_signal []) with
  | .error err => .error err
  | .ok values =>
      .ok { arbitration_id := e.msg_def.frame_id
            data := e.msg_def.encodeSig values
            is_extended_id := e.msg_def.is_extended_frame }

/-- FrameDecoder state after construction. -/
structure FrameDecoder where
  msg_def : MsgDef
  signal_to_alias : List (String × String)

/-- FrameDecoder construction, resolving binding.message in the DBC. -/
def FrameDecoder.ofBinding (dbc : Dbc) (binding : RxBindingConfig) :
    Option FrameDecoder :=
  (getMessageByName dbc binding.message).map fun md =>
    { msg_def := md, signal_to_alias := binding.fields }

/-- decoder.frame_id property. -/
def FrameDecoder.frameId (d : FrameDecoder) : Nat :=
  d.msg_def.frame_id

/-- FrameDecoder.decode: schema-decode the bytes (none models the cantools
exception on malformed bytes); with a non-empty signal map, build the dict
comprehension mapping alias to decoded.get(signal) — a missing signal yields
the alias bound to none, the Python None; with an empty map return the
decoded signals unchanged. -/
def FrameDecoder.decode (d : FrameDecoder) (raw : List Nat) :
    Option (List (String × Option Int)) :=
  match d.msg_def.decodeSig raw with
  | none => none
  | some decoded =>
    if d.signal_to_alias.isEmpty then
      some (decoded.map fun p => (p.1, some p.2))
    else
      some (dictOf (d.signal_to_alias.map fun p => (p.2, lookupD decoded p.1)))

/-!
## Channel service runtime

CanBusService owns the bus handle, the TX and RX binding registries, the stop
flag and the RX thread handle.  The python-can bus is an external
collaborator modelled by its observable contract: send on an open bus queues
the frame, send on a closed bus raises; shutdown closes the bus, and closing
an already-closed handle may raise (the service wraps it in try/except).
Handlers are identified by an opaque numeric tag so that handler invocations
are observable events.
-/

/-- Errors surfaced by the modelled python-can bus handle. -/
inductive BusErr where
  | busClosed
deriving DecidableEq, Repr

/-- Observable state of the python-can bus handle: open flag and the frames
written so far. -/
structure BusState where
  isOpen : Bool
  sent : List CanMessage
deriving DecidableEq, Repr

/-- bus.send: writing to a closed handle raises. -/
def busSend (b : BusState) (m : CanMessage) : Except BusErr BusState :=
  if b.isOpen then .ok { b with sent := b.sent ++ [m] } else .error .busClosed

/-- bus.shutdown: closing an already-closed handle raises (driver-dependent;
the service catches it either way). -/
def busShutdown (b : BusState) : Except BusErr BusState :=
  if b.isOpen then .ok { b with isOpen := false } else .error .busClosed

/-- One entry of the RX registry: (decoder, binding, handler), with the
handler abstracted to a numeric tag. -/
structure RxEntry where
  decoder : FrameDecoder
  binding : RxBindingConfig
  handler : Nat

/-- CanBusService state: TX registry keyed by binding key, RX registry keyed
by numeric frame identifier, stop flag, RX thread handle, bus handle. -/
structure ServiceState where
  txBindings : List (String × FrameEncoder)
  rxBindings : List (Nat × RxEntry)
  stopFlag : Bool
  hasRxThread : Bool
  bus : BusState

/-- CanBusService.register_tx_binding (with the DBC lookup that may raise
inside the FrameEncoder constructor). -/
def CanBusService.registerTxBinding (s : ServiceState) (dbc : Dbc)
    (binding : TxBindingConfig) : Option ServiceState :=
  (FrameEncoder.ofBinding dbc binding).map fun enc =>
    { s with txBindings := insertD s.txBindings binding.key enc }

/-- CanBusService.register_rx_binding: compile the decoder and store the
(decoder, binding, handler) entry under the numeric frame identifier of the
resolved message. -/
def CanBusService.registerRxBinding (s : ServiceState) (dbc : Dbc)
    (binding : RxBindingConfig) (handler : Nat) : Option ServiceState :=
  (FrameDecoder.ofBinding dbc binding).map fun dec =>
    { s with rxBindings :=
        insertD s.rxBindings dec.frameId ⟨dec, binding, handler⟩ }

/-- Errors surfaced by CanBusService.send to its caller. -/
inductive SendErr where
  | unknownBinding (key : String)
  | encodeError (e : EncodeErr)
  | transmitError (e : BusErr)
deriving DecidableEq, Repr

/-- CanBusService.send: unknown binding key raises KeyError; otherwise encode
(possibly raising) and write the frame to the bus (possibly raising).  The
result is the service state after the call together with the raised error,
if any; every error leaves the state unchanged. -/
def CanBusService.send (s : ServiceState) (key : String)
    (payload : List (String × Int)) : ServiceState × Option SendErr :=
  match lookupD s.txBindings key with
  | none => (s, some (.unknownBinding key))
  | some enc =>
    match enc.encode payload with
    | .error e => (s, some (.encodeError e))
    | .ok frame =>
      match busSend s.bus frame with
      | .error e => (s, some (.transmitError e))
      | .ok b => ({ s with bus := b }, none)

/-- CanBusService.shutdown: set the stop flag, join and drop the RX thread,
then close the bus handle, swallowing any exception from the close.  The
try/except makes the operation total. -/
def CanBusService.shutdown (s : ServiceState) : ServiceState :=
  let s1 := { s with stopFlag := true, hasRxThread := false }
  match busShutdown s1.bus with
  | .ok b => { s1 with bus := b }
  | .error _ => s1

/-!
## Receive loop

The RX loop reads frames one at a time; its observable behaviour over a
finite sequence of delivered frames is the list of handler invocations
(handler tag, decoded payload, binding key).  A frame with no registered
decoder is skipped; a frame whose decode raises is caught and logged, and the
loop moves on to the next frame — captured by the processing of one frame
being a total function returning an optional invocation.
-/

/-- One iteration of CanBusService._rx_loop on a delivered frame. -/
def rxStep (rxBindings : List (Nat × RxEntry)) (m : CanMessage) :
    Option (Nat × List (String × Option Int) × String) :=
  match lookupD rxBindings m.arbitration_id with
  | none => none
  | some e =>
    match e.decoder.decode m.data with
    | none => none
    | some payload => some (e.handler, payload, e.binding.key)

/-- The RX loop over a finite sequence of delivered frames: the list of
handler invocations it performs. -/
def rxLoop (rxBindings : List (Nat × RxEntry)) (msgs : List CanMessage) :
    List (Nat × List (String × Option Int) × String) :=
  msgs.filterMap (rxStep rxBindings)

/-!
## Bridge supervisor (bridge_node.py)

TDCANBridge.__init__ iterates the configured buses in order, constructing a
BusWorker for each; constructing a worker opens the SocketCAN interface,
which raises when the interface cannot be opened.  There is no try/except
around the loop, so the first failing bus aborts the constructor: workers
built before it exist, the failure propagates, and later buses are never
reached.
-/

/-- The per-bus fields of a config entry that decide channel startup. -/
structure BusCfg where
  name : String
  interface : String
deriving DecidableEq, Repr

/-- TDCANBridge.__init__ bus loop, parametrised by which transport
identifiers can be opened.  Returns the names of the workers that were
constructed and the interface of the first bus whose open raised, if any. -/
def TDCANBridge.initBuses (canOpen : String → Bool) :
    List BusCfg → List String × Option String
  | [] => ([], none)
  | cfg :: rest =>
    if canOpen cfg.interface then
      let r := TDCANBridge.initBuses canOpen rest
      (cfg.name :: r.1, r.2)
    else
      ([], some cfg.interface)

/-!
## Configuration path resolution (load_bridge_config)

Paths are modelled as an absolute flag plus a component list.  Path.resolve
makes a path absolute against the process working directory when it is
relative, and normalises dot and dot-dot components; for an already-absolute
path the working directory plays no role.  load_bridge_config resolves the
configuration path first, then keeps an absolute dbc_file unchanged and
joins a relative dbc_file onto the parent directory of the resolved
configuration path before resolving.
-/

/-- A pathlib.Path: absolute flag and components. -/
structure PyPath where
  absolute : Bool
  components : List String
deriving DecidableEq, Repr

/-- Normalisation done by Path.resolve: drop single-dot components and let a
dot-dot component cancel the preceding one. -/
def normComps (cs : List String) : List String :=
  cs.foldl
    (fun acc c =>
      if c = "." then acc
      else if c = ".." then acc.dropLast
      else acc ++ [c])
    []

/-- Path.resolve: a relative path is made absolute against the process
working directory; an absolute path is only normalised. -/
def pathResolve (cwd : List String) (p : PyPath) : PyPath :=
  if p.absolute then ⟨true, normComps p.components⟩
  else ⟨true, normComps (cwd ++ p.components)⟩

/-- Path.parent. -/
def pathParent (p : PyPath) : PyPath :=
  ⟨p.absolute, p.components.dropLast⟩

/-- The slash operator of pathlib: joining an absolute right operand discards
the left one. -/
def pathJoin (a b : PyPath) : PyPath :=
  if b.absolute then b else ⟨a.absolute, a.components ++ b.components⟩

/-- The dbc_file handling of load_bridge_config: the configuration path is
resolved on entry; an absolute dbc path is kept verbatim, a relative one is
joined onto the parent of the resolved configuration path and resolved. -/
def loadBridgeConfigDbcPath (cwd : List String) (cfgRaw dbcRaw : PyPath) :
    PyPath :=
  let cfg_path := pathResolve cwd cfgRaw
  if dbcRaw.absolute then dbcRaw
  else pathResolve cwd (pathJoin (pathParent cfg_path) dbcRaw)

/-!
## Supporting lemmas about the encoder value-building loop
-/

theorem buildValues_ok (bkey : String) (payload : List (String × Int))
    (l : List (String × String)) (acc : List (String × Int))
    (hsig : (l.map Prod.snd).Nodup)
    (hd : ∀ p ∈ l, p.2 ∉ acc.map Prod.fst)
    (hall : ∀ p ∈ l, (lookupD payload p.1).isSome) :
    buildValues bkey payload l acc =
      .ok (acc ++ l.map fun p => (p.2, (lookupD payload p.1).getD 0)) := by
  induction l generalizing acc with
  | nil => simp [buildValues]
  | cons p rest ih =>
    obtain ⟨v, hv⟩ := Option.isSome_iff_exists.mp (hall p (by simp))
    simp only [List.map_cons, List.nodup_cons] at hsig
    have hfresh : p.2 ∉ acc.map Prod.fst := hd p (by simp)
    have hd' : ∀ q ∈ rest, q.2 ∉ (acc ++ [(p.2, v)]).map Prod.fst := by
      intro q hq
      simp only [List.map_append, List.mem_append, List.map_cons, List.map_nil,
        List.mem_singleton, not_or]
      refine ⟨hd q (by simp [hq]), ?_⟩
      intro hcontra
      exact hsig.1 (hcontra ▸ List.mem_map_of_mem Prod.snd hq)
    simp only [buildValues, hv]
    rw [insertD_of_not_mem _ hfresh,
      ih (acc ++ [(p.2, v)]) hsig.2 hd' (fun q hq => hall q (by simp [hq]))]
    simp [hv]

theorem buildValues_error_of_missing (bkey : String)
    (payload : List (String × Int)) (l : List (String × String))
    (acc : List (String × Int))
    (h : ∃ a ∈ l.map Prod.fst, lookupD payload a = none) :
    ∃ a, a ∈ l.map Prod.fst ∧ lookupD payload a = none ∧
      buildValues bkey payload l acc = .error (.missingField a bkey) := by
  induction l generalizing acc with
  | nil => simp at h
  | cons p rest ih =>
    cases hl : lookupD payload p.1 with
    | none =>
      exact ⟨p.1, by simp, hl, by simp [buildValues, hl]⟩
    | some v =>
      obtain ⟨a, ha, hna⟩ := h
      simp only [List.map_cons, List.mem_cons] at ha
      rcases ha with rfl | ha'
      · rw [hl] at hna
        cases hna
      · obtain ⟨a', h1, h2, h3⟩ := ih (insertD acc p.2 v) ⟨a, ha', hna⟩
        exact ⟨a', by simp [h1], h2, by simp [buildValues, hl, h3]⟩

/-- Shutdown in one equation: flags set, thread handle dropped, bus closed,
with the close of an already-closed handle swallowed. -/
theorem shutdown_eq (s : ServiceState) :
    CanBusService.shutdown s =
      { s with stopFlag := true, hasRxThread := false,
               bus := { s.bus with isOpen := false } } := by
  cases s with
  | mk tx rx st th bus =>
    cases bus with
    | mk o sent => cases o <;> simp [CanBusService.shutdown, busShutdown]

/-!
## Concrete schema and service instances used by the witnesses

wSchema models a one-signal message: the signal motor_temp_C is quantised to
one byte.  Its decode rejects any byte string that is not exactly one byte
long, which models the cantools wrong-length failure.
-/

def wSchema : MsgDef :=
  { name := "Status1"
    frame_id := 0x123
    is_extended_frame := false
    encodeSig := fun v => [(((lookupD v "motor_temp_C").getD 0) % 256).toNat]
    decodeSig := fun b =>
      match b with
      | [x] => some [("motor_temp_C", (x : Int) % 256)]
      | _ => none }

theorem wSchema_roundtrip (v : List (String × Int))
    (hv : v.map Prod.fst = ["motor_temp_C"]) :
    wSchema.decodeSig (wSchema.encodeSig v) =
      some (v.map fun q => (q.1, q.2 % 256)) := by
  match v with
  | [] => simp at hv
  | [(a, x)] =>
    simp only [List.map_cons, List.map_nil, List.cons.injEq] at hv
    obtain ⟨ha, -⟩ := hv
    subst ha
    have harith : (((x % 256).toNat : Int)) % 256 = x % 256 := by omega
    show some [("motor_temp_C",
        ((((lookupD [("motor_temp_C", x)] "motor_temp_C").getD 0) % 256).toNat : Int) % 256)] =
      some [("motor_temp_C", x % 256)]
    simp only [lookupD, if_true, eq_self_iff_true, Option.getD_some, harith]
  | p :: q :: rest => simp at hv

def wEnc : FrameEncoder :=
  { binding_key := "temp_report"
    msg_def := wSchema
    alias_to_signal := [("celsius", "motor_temp_C")] }

def wRxBinding : RxBindingConfig :=
  { key := "status", message := "Status1", fields := [("motor_temp_C", "celsius")] }

def wRxEntry : RxEntry :=
  { decoder := { msg_def := wSchema, signal_to_alias := [("motor_temp_C", "celsius")] }
    binding := wRxBinding
    handler := 7 }

def wSvc : ServiceState :=
  { txBindings := [("temp_report", wEnc)]
    rxBindings := [(0x123, wRxEntry)]
    stopFlag := false
    hasRxThread := true
    bus := { isOpen := true, sent := [] } }

def wRxb : List (Nat × RxEntry) := [(0x123, wRxEntry)]

def wBadMsg : CanMessage := { arbitration_id := 0x123, data := [1, 2], is_extended_id := false }

def wGoodMsg : CanMessage := { arbitration_id := 0x123, data := [5], is_extended_id := false }

def wUnknownMsg : CanMessage := { arbitration_id := 0x999, data := [5], is_extended_id := false }

/-!
## Claim theorems
-/

/-- C1: for every binding whose friendly-to-signal field map is non-empty
(with distinct aliases and distinct target signals, as in the Python dicts)
and every payload containing a value for each mapped friendly field, if the
external schema satisfies its round-trip contract up to per-signal
quantisation qf, then decoding the bytes produced by encode with the same
message definition and the inverse signal-to-friendly map yields a payload
whose keys are exactly the mapped friendly fields and whose value at each
mapped field is the quantisation of the original value. -/
theorem c1_encode_decode_roundtrip (md : MsgDef) (bkey : String)
    (a2s : List (String × String)) (payload : List (String × Int))
    (qf : String → Int → Int)
    (hne : a2s ≠ [])
    (hsig : (a2s.map Prod.snd).Nodup)
    (halias : (a2s.map Prod.fst).Nodup)
    (hall : ∀ p ∈ a2s, (lookupD payload p.1).isSome)
    (hschema : ∀ v : List (String × Int), v.map Prod.fst = a2s.map Prod.snd →
      md.decodeSig (md.encodeSig v) = some (v.map fun q => (q.1, qf q.1 q.2))) :
    ∃ msg out,
      FrameEncoder.encode ⟨bkey, md, a2s⟩ payload = .ok msg ∧
      FrameDecoder.decode ⟨md, a2s.map fun p => (p.2, p.1)⟩ msg.data = some out ∧
      out.map Prod.fst = a2s.map Prod.fst ∧
      ∀ p ∈ a2s, lookupD out p.1 =
        some (some (qf p.2 ((lookupD payload p.1).getD 0))) := by
  have hbv := buildValues_ok bkey payload a2s [] hsig (by simp) hall
  have hempty : a2s.isEmpty = false := by
    cases a2s with
    | nil => exact absurd rfl hne
    | cons p rest => rfl
  set vals : List (String × Int) :=
    a2s.map fun p => (p.2, (lookupD payload p.1).getD 0) with hvals
  have henc : FrameEncoder.encode ⟨bkey, md, a2s⟩ payload =
      .ok { arbitration_id := md.frame_id, data := md.encodeSig vals,
            is_extended_id := md.is_extended_frame } := by
    simp only [FrameEncoder.encode, hempty, Bool.false_eq_true, if_false, hbv]
    simp [hvals]
  have hkeys : vals.map Prod.fst = a2s.map Prod.snd := by
    simp [hvals, List.map_map, Function.comp]
  have hdec := hschema vals hkeys
  set decoded : List (String × Int) := vals.map fun q => (q.1, qf q.1 q.2)
    with hdecoded
  have hdecoded2 : decoded =
      a2s.map fun p => (p.2, qf p.2 ((lookupD payload p.1).getD 0)) := by
    simp [hdecoded, hvals, List.map_map, Function.comp]
  have hempty2 : (a2s.map fun p : String × String => (p.2, p.1)).isEmpty = false := by
    cases a2s with
    | nil => exact absurd rfl hne
    | cons p rest => rfl
  set out : List (String × Option Int) :=
    a2s.map fun p => (p.1, lookupD decoded p.2) with hout
  have houtkeys : out.map Prod.fst = a2s.map Prod.fst := by
    simp [hout, List.map_map, Function.comp]
  have hmapmap : ((a2s.map fun p : String × String => (p.2, p.1)).map
      fun q : String × String => (q.2, lookupD decoded q.1)) = out := by
    simp [hout, List.map_map, Function.comp]
  have hdecode : FrameDecoder.decode ⟨md, a2s.map fun p => (p.2, p.1)⟩
      (md.encodeSig vals) = some out := by
    simp only [FrameDecoder.decode, hdec, hempty2, Bool.false_eq_true, if_false]
    rw [hmapmap, dictOf_of_nodup (by simpa [houtkeys] using halias)]
  refine ⟨_, out, henc, hdecode, houtkeys, ?_⟩
  intro p hp
  have h1 : lookupD out p.1 = some (lookupD decoded p.2) := by
    rw [hout]
    exact lookupD_map_of_nodup a2s Prod.fst (fun r => lookupD decoded r.2) halias hp
  have h2 : lookupD decoded p.2 =
      some (qf p.2 ((lookupD payload p.1).getD 0)) := by
    rw [hdecoded2]
    exact lookupD_map_of_nodup a2s Prod.snd
      (fun r => qf r.2 ((lookupD payload r.1).getD 0)) hsig hp
  rw [h1, h2]

/-- Witness for C1 at a concrete one-signal schema: encoding the payload
celsius = 42 through the temp_report binding and decoding the produced bytes
with the inverse map returns celsius = 42 (the value is its own
quantisation). -/
theorem c1_roundtrip_witness :
    ∃ msg out,
      FrameEncoder.encode ⟨"temp_report", wSchema, [("celsius", "motor_temp_C")]⟩
        [("celsius", (42 : Int))] = .ok msg ∧
      FrameDecoder.decode
        ⟨wSchema, [("celsius", "motor_temp_C")].map fun p => (p.2, p.1)⟩
        msg.data = some out ∧
      out.map Prod.fst = ["celsius"] ∧
      lookupD out "celsius" = some (some 42) := by
  obtain ⟨msg, out, h1, h2, h3, h4⟩ :=
    c1_encode_decode_roundtrip wSchema "temp_report" [("celsius", "motor_temp_C")]
      [("celsius", (42 : Int))] (fun _ x => x % 256)
      (by decide) (by simp) (by simp) (by decide)
      (fun v hv => by simpa using wSchema_roundtrip v (by simpa using hv))
  refine ⟨msg, out, h1, h2, by simpa using h3, ?_⟩
  have h5 := h4 ("celsius", "motor_temp_C") (by simp)
  simpa using h5

/-- Configuration with two channels where exactly the first one has an
interface that cannot be opened. -/
def c2Cfgs : List BusCfg := [⟨"chanA", "can0"⟩, ⟨"chanB", "vcan1"⟩]

/-- Transport availability for the C2 scenario: only can0 is missing. -/
def c2CanOpen : String → Bool := fun i => !(i == "can0")

/-- C2 counterexample: with two configured channels of which exactly one
(can0) fails to open, the bridge constructor starts no further channel —
chanB is not among the started workers, contradicting the claim that every
other channel still starts.  The loop in TDCANBridge has no exception
handling, so the first failing BusWorker aborts construction. -/
theorem c2_counterexample :
    TDCANBridge.initBuses c2CanOpen c2Cfgs = ([], some "can0") ∧
    "chanB" ∉ (TDCANBridge.initBuses c2CanOpen c2Cfgs).1 := by
  decide

/-- C2 amended: when one channel fails to open, the channels configured
before it are started, the open failure of that channel propagates out of the
bridge constructor as the single reported failure, and the channels
configured after it are not started. -/
theorem c2_abort_on_first_open_failure (canOpen : String → Bool)
    (pre post : List BusCfg) (bad : BusCfg)
    (hpre : ∀ c ∈ pre, canOpen c.interface = true)
    (hbad : canOpen bad.interface = false) :
    TDCANBridge.initBuses canOpen (pre ++ bad :: post) =
      (pre.map BusCfg.name, some bad.interface) := by
  induction pre with
  | nil => simp [TDCANBridge.initBuses, hbad]
  | cons c rest ih =>
    have hc := hpre c (by simp)
    simp only [List.cons_append, TDCANBridge.initBuses, hc, if_true,
      List.append_eq]
    rw [ih (fun x hx => hpre x (by simp [hx]))]
    simp

/-- Witness for the amended C2: with the good channel first and the bad one
second, exactly the good channel starts and exactly one failure is
reported. -/
theorem c2_abort_witness :
    TDCANBridge.initBuses c2CanOpen
      ([⟨"chanB", "vcan1"⟩] ++ ⟨"chanA", "can0"⟩ :: []) =
      (["chanB"], some "can0") :=
  c2_abort_on_first_open_failure c2CanOpen [⟨"chanB", "vcan1"⟩] []
    ⟨"chanA", "can0"⟩ (by decide) (by decide)

/-- C3: for every registered outbound binding with a non-empty
friendly-to-signal map and a payload lacking at least one mapped friendly
field, encode raises the KeyError naming a missing field (the first one in
map order) and send surfaces it without writing anything to the bus; with an
empty map the payload is handed to the schema encoder unchanged. -/
theorem c3_missing_field_and_passthrough (s : ServiceState) (key : String)
    (enc : FrameEncoder) (payload : List (String × Int))
    (hreg : lookupD s.txBindings key = some enc) :
    ((enc.alias_to_signal ≠ [] ∧
        ∃ a ∈ enc.alias_to_signal.map Prod.fst, lookupD payload a = none) →
      ∃ a, a ∈ enc.alias_to_signal.map Prod.fst ∧ lookupD payload a = none ∧
        enc.encode payload = .error (.missingField a enc.binding_key) ∧
        CanBusService.send s key payload =
          (s, some (.encodeError (.missingField a enc.binding_key)))) ∧
    (enc.alias_to_signal = [] →
      enc.encode payload =
        .ok { arbitration_id := enc.msg_def.frame_id
              data := enc.msg_def.encodeSig payload
              is_extended_id := enc.msg_def.is_extended_frame }) := by
  constructor
  · rintro ⟨hne, hmiss⟩
    obtain ⟨a, ha, hla, hbv⟩ :=
      buildValues_error_of_missing enc.binding_key payload enc.alias_to_signal [] hmiss
    have hempty : enc.alias_to_signal.isEmpty = false := by
      cases h : enc.alias_to_signal with
      | nil => exact absurd h hne
      | cons p rest => rfl
    have henc : enc.encode payload = .error (.missingField a enc.binding_key) := by
      simp only [FrameEncoder.encode, hempty, Bool.false_eq_true, if_false, hbv]
    refine ⟨a, ha, hla, henc, ?_⟩
    simp only [CanBusService.send, hreg, henc]
  · intro hempty
    simp [FrameEncoder.encode, hempty]

/-- Witness for C3: sending an empty payload through the temp_report binding,
whose map requires the field celsius, raises the KeyError naming celsius and
leaves the service state (and so the bus) untouched. -/
theorem c3_missing_field_witness :
    ∃ a, a ∈ wEnc.alias_to_signal.map Prod.fst ∧
      lookupD ([] : List (String × Int)) a = none ∧
      wEnc.encode [] = .error (.missingField a wEnc.binding_key) ∧
      CanBusService.send wSvc "temp_report" [] =
        (wSvc, some (.encodeError (.missingField a wEnc.binding_key))) :=
  (c3_missing_field_and_passthrough wSvc "temp_report" wEnc [] rfl).1
    ⟨by decide, ⟨"celsius", by simp [wEnc], rfl⟩⟩

/-- C4: a received frame whose identifier matches a registered decoder but
whose bytes fail to decode produces no handler invocation (the exception is
caught and logged) and the receive loop stays alive: the invocations over the
remaining frames are exactly those of the loop run without the bad frame. -/
theorem c4_bad_frame_keeps_loop_alive (rxBindings : List (Nat × RxEntry))
    (m : CanMessage) (e : RxEntry)
    (hfind : lookupD rxBindings m.arbitration_id = some e)
    (hbad : e.decoder.decode m.data = none) :
    rxStep rxBindings m = none ∧
    ∀ rest, rxLoop rxBindings (m :: rest) = rxLoop rxBindings rest := by
  have hstep : rxStep rxBindings m = none := by
    simp only [rxStep, hfind, hbad]
  exact ⟨hstep, fun rest => by simp [rxLoop, hstep]⟩

/-- Witness for C4: a two-byte frame on the one-byte Status1 message is
dropped without a handler call and a following good frame is still the only
one handled. -/
theorem c4_bad_frame_witness :
    rxStep wRxb wBadMsg = none ∧
    rxLoop wRxb [wBadMsg, wGoodMsg] = rxLoop wRxb [wGoodMsg] := by
  have h := c4_bad_frame_keeps_loop_alive wRxb wBadMsg wRxEntry rfl rfl
  exact ⟨h.1, h.2 [wGoodMsg]⟩

/-- C5: shutdown is idempotent and total (the close of an already-closed bus
is swallowed), leaves the channel stopped with the receive thread joined and
the bus closed, holds from any state including one where start never fully
succeeded, and any send after shutdown reports an error to the caller while
writing nothing to the bus. -/
theorem c5_shutdown_idempotent_and_send_fails (s : ServiceState) :
    CanBusService.shutdown (CanBusService.shutdown s) = CanBusService.shutdown s ∧
    (CanBusService.shutdown s).stopFlag = true ∧
    (CanBusService.shutdown s).hasRxThread = false ∧
    (CanBusService.shutdown s).bus.isOpen = false ∧
    ∀ key payload,
      (CanBusService.send (CanBusService.shutdown s) key payload).2.isSome ∧
      (CanBusService.send (CanBusService.shutdown s) key payload).1 =
        CanBusService.shutdown s := by
  rw [shutdown_eq s, shutdown_eq]
  refine ⟨rfl, rfl, rfl, rfl, ?_⟩
  intro key payload
  set s' : ServiceState :=
    { s with stopFlag := true, hasRxThread := false,
             bus := { s.bus with isOpen := false } } with hs'
  cases hfind : lookupD s'.txBindings key with
  | none => simp [CanBusService.send, hfind]
  | some enc =>
    cases henc : enc.encode payload with
    | error e => simp [CanBusService.send, hfind, henc]
    | ok frame =>
      have hclosed : busSend s'.bus frame = .error .busClosed := by
        simp [busSend, hs']
      simp [CanBusService.send, hfind, henc, hclosed]

/-- C6: send on a binding key that was never registered reports the KeyError
naming the key to the caller and leaves the whole service state, in
particular the list of frames written to the bus, unchanged. -/
theorem c6_unknown_binding_no_side_effect (s : ServiceState) (key : String)
    (payload : List (String × Int))
    (h : lookupD s.txBindings key = none) :
    CanBusService.send s key payload = (s, some (.unknownBinding key)) := by
  simp [CanBusService.send, h]

/-- Witness for C6: sending on the key unknown_key, which the witness service
never registered, fails with the unknown-binding error and changes nothing. -/
theorem c6_unknown_binding_witness :
    CanBusService.send wSvc "unknown_key" [] =
      (wSvc, some (.unknownBinding "unknown_key")) :=
  c6_unknown_binding_no_side_effect wSvc "unknown_key" [] rfl

/-- C7: a received frame whose numeric identifier has no registered decoder
triggers no handler and no error; it is skipped and the loop continues with
the remaining frames exactly as if the frame had not arrived. -/
theorem c7_unknown_frame_ignored (rxBindings : List (Nat × RxEntry))
    (m : CanMessage)
    (h : lookupD rxBindings m.arbitration_id = none) :
    rxStep rxBindings m = none ∧
    ∀ rest, rxLoop rxBindings (m :: rest) = rxLoop rxBindings rest := by
  have hstep : rxStep rxBindings m = none := by
    simp only [rxStep, h]
  exact ⟨hstep, fun rest => by simp [rxLoop, hstep]⟩

/-- Witness for C7: a frame with the unregistered identifier 0x999 produces
no invocation and does not disturb the handling of a following known
frame. -/
theorem c7_unknown_frame_witness :
    rxStep wRxb wUnknownMsg = none ∧
    rxLoop wRxb [wUnknownMsg, wGoodMsg] = rxLoop wRxb [wGoodMsg] := by
  have h := c7_unknown_frame_ignored wRxb wUnknownMsg rfl
  exact ⟨h.1, h.2 [wGoodMsg]⟩

/-- Resolving an absolute path ignores the working directory. -/
theorem pathResolve_of_absolute (c : List String) (p : PyPath)
    (h : p.absolute = true) :
    pathResolve c p = ⟨true, normComps p.components⟩ := by
  simp [pathResolve, h]

/-- C8: load_bridge_config keeps an absolute schema path unchanged, resolves
a relative schema path against the directory containing the configuration
file (the parent of the resolved configuration path), and — once the
configuration path itself is absolute — the result is independent of the
process working directory. -/
theorem c8_dbc_path_resolution (cwd cwd2 : List String) (cfgRaw dbc : PyPath) :
    (dbc.absolute = true → loadBridgeConfigDbcPath cwd cfgRaw dbc = dbc) ∧
    (dbc.absolute = false →
      loadBridgeConfigDbcPath cwd cfgRaw dbc =
        ⟨true, normComps ((pathParent (pathResolve cwd cfgRaw)).components
          ++ dbc.components)⟩) ∧
    (cfgRaw.absolute = true →
      loadBridgeConfigDbcPath cwd cfgRaw dbc =
        loadBridgeConfigDbcPath cwd2 cfgRaw dbc) := by
  refine ⟨?_, ?_, ?_⟩
  · intro habs
    simp [loadBridgeConfigDbcPath, habs]
  · intro hrel
    have hparent : (pathParent (pathResolve cwd cfgRaw)).absolute = true := by
      by_cases h : cfgRaw.absolute <;> simp [pathParent, pathResolve, h]
    have hjoin : pathJoin (pathParent (pathResolve cwd cfgRaw)) dbc =
        ⟨true, (pathParent (pathResolve cwd cfgRaw)).components ++ dbc.components⟩ := by
      simp only [pathJoin, hrel, Bool.false_eq_true, if_false, hparent]
    simp only [loadBridgeConfigDbcPath, hrel, Bool.false_eq_true, if_false, hjoin]
    exact pathResolve_of_absolute cwd _ rfl
  · intro hcfg
    have hres : pathResolve cwd cfgRaw = pathResolve cwd2 cfgRaw := by
      simp [pathResolve, hcfg]
    by_cases hd : dbc.absolute
    · simp [loadBridgeConfigDbcPath, hd]
    · have hparent2 : (pathParent (pathResolve cwd2 cfgRaw)).absolute = true := by
        simp [pathParent, pathResolve, hcfg]
      have hjoin2 : (pathJoin (pathParent (pathResolve cwd2 cfgRaw)) dbc).absolute = true := by
        simp [pathJoin, hd, hparent2]
      simp only [loadBridgeConfigDbcPath, hd, Bool.false_eq_true, if_false, hres]
      rw [pathResolve_of_absolute cwd _ hjoin2, pathResolve_of_absolute cwd2 _ hjoin2]

/-- Witness for C8 at concrete paths: a relative dev.dbc next to the
configuration file resolves into the configuration directory, an absolute
schema path is returned verbatim, and two different working directories give
the same result. -/
theorem c8_dbc_path_witness :
    loadBridgeConfigDbcPath ["wd"] ⟨true, ["etc", "bridge.yaml"]⟩
        ⟨false, ["dev.dbc"]⟩ = ⟨true, ["etc", "dev.dbc"]⟩ ∧
    loadBridgeConfigDbcPath ["wd"] ⟨true, ["etc", "bridge.yaml"]⟩
        ⟨true, ["schemas", "x.dbc"]⟩ = ⟨true, ["schemas", "x.dbc"]⟩ ∧
    loadBridgeConfigDbcPath ["wd1"] ⟨true, ["etc", "bridge.yaml"]⟩
        ⟨false, ["dev.dbc"]⟩ =
      loadBridgeConfigDbcPath ["wd2"] ⟨true, ["etc", "bridge.yaml"]⟩
        ⟨false, ["dev.dbc"]⟩ := by
  refine ⟨?_, ?_, ?_⟩
  · rw [(c8_dbc_path_resolution ["wd"] ["wd"] ⟨true, ["etc", "bridge.yaml"]⟩
      ⟨false, ["dev.dbc"]⟩).2.1 rfl]
    decide
  · exact (c8_dbc_path_resolution ["wd"] ["wd"] ⟨true, ["etc", "bridge.yaml"]⟩
      ⟨true, ["schemas", "x.dbc"]⟩).1 rfl
  · exact (c8_dbc_path_resolution ["wd1"] ["wd2"] ⟨true, ["etc", "bridge.yaml"]⟩
      ⟨false, ["dev.dbc"]⟩).2.2 rfl

/-- C9: for an inbound binding with a non-empty signal-to-friendly map whose
aliases are distinct, when a mapped schema signal is absent from the
schema-decoded signal map, decode still succeeds, binds the friendly key of
the absent signal to the null value, and forwards exactly the mapped
aliases. -/
theorem c9_missing_signal_yields_null (md : MsgDef)
    (s2a : List (String × String)) (raw : List Nat)
    (decoded : List (String × Int)) (sig als : String)
    (hne : s2a ≠ [])
    (haliases : (s2a.map Prod.snd).Nodup)
    (hdec : md.decodeSig raw = some decoded)
    (hmem : (sig, als) ∈ s2a)
    (hmiss : lookupD decoded sig = none) :
    ∃ out, FrameDecoder.decode ⟨md, s2a⟩ raw = some out ∧
      lookupD out als = some none ∧
      out.map Prod.fst = s2a.map Prod.snd := by
  have hempty : s2a.isEmpty = false := by
    cases h : s2a with
    | nil => exact absurd h hne
    | cons p rest => rfl
  set out : List (String × Option Int) :=
    s2a.map fun p => (p.2, lookupD decoded p.1) with hout
  have houtkeys : out.map Prod.fst = s2a.map Prod.snd := by
    simp [hout, List.map_map, Function.comp]
  have hdecode : FrameDecoder.decode ⟨md, s2a⟩ raw = some out := by
    simp only [FrameDecoder.decode, hdec, hempty, Bool.false_eq_true, if_false]
    rw [dictOf_of_nodup (by simpa [houtkeys] using haliases)]
  refine ⟨out, hdecode, ?_, houtkeys⟩
  have h1 := lookupD_map_of_nodup s2a Prod.snd (fun r => lookupD decoded r.1)
    haliases hmem
  simpa [hout, hmiss] using h1

/-- Concrete two-signal message for the C9 witness: decoding two bytes
reports only the first signal, so the second mapped signal is absent from
the decoded map. -/
def wSchema2 : MsgDef :=
  { name := "Status2"
    frame_id := 0x124
    is_extended_frame := false
    encodeSig := fun _ => []
    decodeSig := fun b =>
      if b.length = 2 then some [("present_sig", 9)] else none }

/-- Witness for C9: the signal ghost_sig is mapped to y but absent from the
decoded frame, and decode returns y bound to the null value next to the
present signal. -/
theorem c9_missing_signal_witness :
    ∃ out,
      FrameDecoder.decode
        ⟨wSchema2, [("present_sig", "x"), ("ghost_sig", "y")]⟩ [0, 0] = some out ∧
      lookupD out "y" = some none ∧
      out.map Prod.fst = ["x", "y"] := by
  obtain ⟨out, h1, h2, h3⟩ :=
    c9_missing_signal_yields_null wSchema2
      [("present_sig", "x"), ("ghost_sig", "y")] [0, 0] [("present_sig", 9)]
      "ghost_sig" "y" (by decide) (by simp) rfl (by simp) rfl
  exact ⟨out, h1, h2, by simpa using h3⟩

/-- C10: the inbound registry is keyed by numeric frame identifier:
registering an inbound binding whose message resolves to an identifier
stores its (decoder, binding, handler) entry under that identifier without
raising, silently replacing any earlier entry for the same identifier,
leaving entries for every other identifier untouched and preserving the
at-most-one-entry-per-identifier invariant. -/
theorem c10_rx_registry_keyed_by_frame_id (s : ServiceState) (dbc : Dbc)
    (b2 : RxBindingConfig) (h2 : Nat) (md : MsgDef)
    (hmsg : getMessageByName dbc b2.message = some md) :
    ∃ s2, CanBusService.registerRxBinding s dbc b2 h2 = some s2 ∧
      lookupD s2.rxBindings md.frame_id =
        some ⟨{ msg_def := md, signal_to_alias := b2.fields }, b2, h2⟩ ∧
      (∀ i, i ≠ md.frame_id →
        lookupD s2.rxBindings i = lookupD s.rxBindings i) ∧
      ((s.rxBindings.map Prod.fst).Nodup → (s2.rxBindings.map Prod.fst).Nodup) := by
  refine ⟨{ s with rxBindings := insertD s.rxBindings md.frame_id (⟨⟨md, b2.fields⟩, b2, h2⟩ : RxEntry) }, ?_, ?_, ?_, ?_⟩
  · simp [CanBusService.registerRxBinding, FrameDecoder.ofBinding, hmsg,
      FrameDecoder.frameId]
  · exact lookupD_insertD_self s.rxBindings md.frame_id _
  · intro i hi
    exact lookupD_insertD_ne s.rxBindings _ hi
  · intro hnd
    exact nodup_keys_insertD hnd

/-- Witness for C10: registering a second binding for the Status1 message,
whose identifier 0x123 is already registered, succeeds and the lookup at
0x123 afterwards returns only the new entry. -/
theorem c10_rx_registry_witness :
    ∃ s2, CanBusService.registerRxBinding wSvc [("Status1", wSchema)]
        ⟨"second", "Status1", [("motor_temp_C", "temp2")]⟩ 8 = some s2 ∧
      lookupD s2.rxBindings 0x123 =
        some ⟨{ msg_def := wSchema, signal_to_alias := [("motor_temp_C", "temp2")] },
          ⟨"second", "Status1", [("motor_temp_C", "temp2")]⟩, 8⟩ := by
  obtain ⟨s2, h1, h2, -, -⟩ :=
    c10_rx_registry_keyed_by_frame_id wSvc [("Status1", wSchema)]
      ⟨"second", "Status1", [("motor_temp_C", "temp2")]⟩ 8 wSchema rfl
  exact ⟨s2, h1, h2⟩

end TritonCAN
